import Mathlib

/-!
Shallow embedding of `pvcircuit/junction.py` (class `Junction`): the physical
model of a single photovoltaic junction.  Python floats are modelled as real
numbers; numpy's scalar-NaN sentinel for an invalid `J0` is modelled as
`Option.none`; Python exceptions that escape a method are modelled with
`Except PyErr`; scipy's `brentq` root finder (external library code) is
modelled as an abstract solver parameter, and the possibility that a single
`np.exp` evaluation raises (numeric overflow) is modelled by an abstract
evaluator `E : ℝ → Option ℝ` in the multi-diode sum.
-/

open Classical

/-- Exceptions that can escape the modelled Python code: iterating over the
scalar `np.nan` that `Junction.J0` returns on a length mismatch raises
`TypeError`. -/
inductive PyErr where
  | typeError
deriving DecidableEq

/-- scipy.constants.k (Boltzmann constant, J/K; exact SI value). -/
def con_k : ℝ := 1.380649e-23

/-- scipy.constants.e (elementary charge, C; exact SI value). -/
def con_e : ℝ := 1.602176634e-19

/-- scipy.constants.h (Planck constant, J s; exact SI value). -/
def con_h : ℝ := 6.62607015e-34

/-- scipy.constants.c (speed of light, m/s; exact SI value). -/
def con_c : ℝ := 299792458

/-- scipy.constants.zero_Celsius = 273.15. -/
def zero_Celsius : ℝ := 273.15

/-- `k_q = con.k/con.e` from junction.py. -/
noncomputable def k_q : ℝ := con_k / con_e

/-- `DB_PREFIX = 2. * np.pi * con.e * (con.k/con.h)**3 / (con.c)**2 /1.e4`
from junction.py (the name is shortened here); the source comments it is
"about 1.0133e-8 for Jdb[A/cm2]". -/
noncomputable def DBPREF : ℝ := 2 * Real.pi * con_e * (con_k / con_h) ^ 3 / con_c ^ 2 / 1e4

/-- `VLIM_REVERSE=10.` from junction.py. -/
def VLIM_REVERSE : ℝ := 10

/-- `VLIM_FORWARD=3.` from junction.py. -/
def VLIM_FORWARD : ℝ := 3

/-- `VTOL= 0.0001` from junction.py. -/
def VTOL : ℝ := 0.0001

/-- `EPSREL=1e-15` from junction.py. -/
def EPSREL : ℝ := 1e-15

/-- `MAXITER=1000` from junction.py. -/
def MAXITER : ℕ := 1000

/-- `Junction.J0scale = 1000.` from junction.py. -/
def J0scale : ℝ := 1000

/-- The `RBB_dict` tagged dictionary of `Junction`: `{'method': None}`,
`{'method':'JFG', 'mrb':…, 'J0rb':…, 'Vrb':…}`,
`{'method':'bishop', 'mrb':…, 'avalanche':…, 'Vrb':…}`, or
`{'method':'pvmismatch', …}` (the last one is handled but contributes 0). -/
inductive RBBDict where
  | rbbNone
  | JFG (mrb J0rb Vrb : ℝ)
  | bishop (mrb avalanche Vrb : ℝ)
  | pvmismatch

/-- The state of a `Junction` object: the attributes set in `__init__` that
the core model reads.  `n` and `J0ratio` are numpy arrays, modelled as lists
of reals (their lengths may differ, which is the invalid configuration). -/
structure Junction where
  Eg : ℝ
  TC : ℝ
  Jext : ℝ
  Gsh : ℝ
  Rser : ℝ
  lightarea : ℝ
  totalarea : ℝ
  pn : ℤ
  beta : ℝ
  gamma : ℝ
  JLC : ℝ
  n : List ℝ
  J0ratio : List ℝ
  RBB_dict : RBBDict

/-- `TK(TC) = TC + con.zero_Celsius`; property `Junction.TK`. -/
noncomputable def TK (j : Junction) : ℝ := j.TC + zero_Celsius

/-- Property `Junction.Vth = k_q * self.TK` (thermal voltage kT/q). -/
noncomputable def Vth (j : Junction) : ℝ := k_q * TK j

/-- Property `Junction.Jphoto = self.Jext * self.lightarea / self.totalarea
+ self.JLC`. -/
noncomputable def Jphoto (j : Junction) : ℝ :=
  j.Jext * j.lightarea / j.totalarea + j.JLC

/-- Property `Junction.Jdb`, the detailed-balance saturation current:
`EgkT = self.Eg / self.Vth` and
`DB_PREFIX * self.TK**3. * (EgkT*EgkT + 2.*EgkT + 2.) * np.exp(-EgkT)`. -/
noncomputable def Jdb (j : Junction) : ℝ :=
  DBPREF * (TK j) ^ 3 * (j.Eg / Vth j * (j.Eg / Vth j) + 2 * (j.Eg / Vth j) + 2) *
    Real.exp (-(j.Eg / Vth j))

/-- The elementwise array computed in the valid branch of `Junction.J0`:
`(self.Jdb * self.J0scale)**(1./self.n) * self.J0ratio / self.J0scale`.
The model uses real arithmetic: Python float inf/nan artifacts (possible only
for a degenerate ideality factor `n_i = 0`) are outside this embedding. -/
noncomputable def J0list (j : Junction) : List ℝ :=
  List.zipWith (fun ni ri => (Jdb j * J0scale) ^ (1 / ni) * ri / J0scale) j.n j.J0ratio

/-- Property `Junction.J0`: if `self.n.size == self.J0ratio.size` the
elementwise array, else the scalar `np.nan` (modelled as `none`).  The
`type(...) is np.ndarray` guards of the source are invariantly true in this
typed model, so only the size test remains. -/
noncomputable def J0 (j : Junction) : Option (List ℝ) :=
  if j.n.length = j.J0ratio.length then some (J0list j) else none

/-- Method `Junction._J0init(J0ref)`: on matching sizes sets
`self.J0ratio = self.J0scale * J0ref / (self.Jdb * self.J0scale)**(1./self.n)`
and returns status 0; on a size mismatch leaves the junction unchanged and
returns status 1.  (The source's status 2 branch, `not numpy.ndarray`, is
unreachable after `J0ref = np.array(J0ref)`.) -/
noncomputable def _J0init (j : Junction) (J0ref : List ℝ) : Junction × ℕ :=
  if j.n.length = J0ref.length then
    ({ j with J0ratio :=
        List.zipWith (fun ni Jr => J0scale * Jr / (Jdb j * J0scale) ^ (1 / ni)) j.n J0ref }, 0)
  else
    (j, 1)

/-- Method `Junction.Jem(Vmid)`: for `Vmid > 0.` return
`self.Jdb * (np.exp(Vmid / self.Vth) - 1.) + self.gamma * self.Jphoto`,
else return `0.`. -/
noncomputable def Jem (j : Junction) (Vmid : ℝ) : ℝ :=
  if 0 < Vmid then Jdb j * (Real.exp (Vmid / Vth j) - 1) + j.gamma * Jphoto j
  else 0

/-- The proposition decided by `Junction.notdiode()` on a well-formed
junction: `self.pn == 0` or the loop-sum of `self.J0` equals `0.`. -/
def notdiodeProp (j : Junction) : Prop := j.pn = 0 ∨ (J0list j).sum = 0

/-- Method `Junction.notdiode()` with its exception behavior: `pn == 0`
returns `True` immediately; otherwise the `for saturation_current in
self.J0` loop iterates `self.J0`, which raises `TypeError` when `J0` is the
scalar `np.nan` (size mismatch), and otherwise returns whether the sum is
exactly `0.`. -/
noncomputable def notdiodeE (j : Junction) : Except PyErr Bool :=
  if j.pn = 0 then Except.ok true
  else
    match J0 j with
    | none => Except.error PyErr.typeError
    | some l => Except.ok (if l.sum = 0 then true else false)

/-- `math.isfinite` applied to a per-diode saturation current: every value of
the real-number model is finite, so this is constantly `true`; it is kept so
the guard of `Junction.Jmultidiodes` keeps the source's shape. -/
def isfinite (_ : ℝ) : Bool := true

/-- The accumulation loop of `Junction.Jmultidiodes` over the zipped pairs
`(ideality_factor, saturation_current)`, parametrized by the evaluator `E`
for `np.exp`: a term is added only when `ideality_factor > 0.`,
`math.isfinite(saturation_current)`, and the `try`-guarded evaluation does
not raise (`E … = some _`); an evaluation that raises (`E … = none`) is
skipped by the `except: continue`. -/
noncomputable def JmultiAux (E : ℝ → Option ℝ) (j : Junction) (V : ℝ) :
    List (ℝ × ℝ) → ℝ
  | [] => 0
  | p :: rest =>
      (if 0 < p.1 ∧ isfinite p.2 = true then
        match E (V / Vth j / p.1) with
        | some ev => p.2 * (ev - 1)
        | none => 0
      else 0) + JmultiAux E j V rest

/-- `Junction.Jmultidiodes(Vdiode)` with an abstract `np.exp` evaluator. -/
noncomputable def JmultidiodesE (E : ℝ → Option ℝ) (j : Junction) (V : ℝ) : ℝ :=
  JmultiAux E j V (j.n.zip (J0list j))

/-- Method `Junction.Jmultidiodes(Vdiode)` with the ideal (never-raising)
exponential. -/
noncomputable def Jmultidiodes (j : Junction) (V : ℝ) : ℝ :=
  JmultidiodesE (fun x => some (Real.exp x)) j V

/-- Method `Junction.JshuntRBB(Vdiode)`: returns
`Vdiode * self.Gsh + JRBB` where `JRBB` is selected by `RBB_dict['method']`:
JFG is active when `Vdiode <= Vrb and mrb != 0.`, bishop when
`Vdiode <= 0. and Vrb != 0.`, and None/pvmismatch contribute `0.`. -/
noncomputable def JshuntRBB (j : Junction) (Vd : ℝ) : ℝ :=
  Vd * j.Gsh +
    match j.RBB_dict with
    | RBBDict.JFG mrb J0rb Vrb =>
        if Vd ≤ Vrb ∧ mrb ≠ 0 then
          -J0rb * (Jdb j * 1000) ^ (1 / mrb) / 1000 * (Real.exp (-Vd / Vth j / mrb) - 1)
        else 0
    | RBBDict.bishop mrb a Vrb =>
        if Vd ≤ 0 ∧ Vrb ≠ 0 then Vd * j.Gsh * a * (1 - Vd / Vrb) ^ (-mrb) else 0
    | RBBDict.rbbNone => 0
    | RBBDict.pvmismatch => 0

/-- Method `Junction.Jparallel(Vdiode, Jtot)`: `Jtot` when `notdiode()`,
else `Jtot - self.Jmultidiodes(Vdiode) - self.JshuntRBB(Vdiode)`.  (It is
only evaluated by the solvers after `notdiode()` has already returned
without raising, so the propositional form of the predicate is used.) -/
noncomputable def Jparallel (j : Junction) (Vd Jtot : ℝ) : ℝ :=
  if notdiodeProp j then Jtot else Jtot - Jmultidiodes j Vd - JshuntRBB j Vd

/-- Method `Junction._dV(Vmid, Vtot)`:
`J = self.Jparallel(Vmid, self.Jphoto)` and `Vtot - Vmid + J * self.Rser`. -/
noncomputable def _dV (j : Junction) (Vmid Vtot : ℝ) : ℝ :=
  Vtot - Vmid + Jparallel j Vmid (Jphoto j) * j.Rser

/-- The shape of `scipy.optimize.brentq(f, a, b, xtol, rtol, maxiter)` as the
caller sees it through `try/except`: either a returned root (`some`) or a
raised exception — no sign change in the bracket, or non-convergence —
(`none`). -/
def Solver : Type := (ℝ → ℝ) → ℝ → ℝ → ℝ → ℝ → ℕ → Option ℝ

/-- Modelled from the spec: `scipy.optimize.brentq` is external library code,
not part of this repository's source.  Per the spec it "finds the voltage in
the open bracket (−10 V, +3 V) where `circuitResidual(voltage, targetCurrent)
== 0`, via bracketed root-finding".  A sound solver therefore returns, when
it returns at all, a point strictly inside the bracket where the residual
vanishes. -/
def SolverSound (S : Solver) : Prop :=
  ∀ f a b xt rt mi v, S f a b xt rt mi = some v → a < v ∧ v < b ∧ f v = 0

/-- Method `Junction.Vdiode(Jdiode)`: calls `self.notdiode()` outside any
`try` (its `TypeError` escapes), returns `0.` for a non-diode, and otherwise
runs `brentq(self.Jparallel, -VLIM_REVERSE, VLIM_FORWARD, args=(Jtot), xtol=
VTOL, rtol=EPSREL, maxiter=MAXITER)` with `Jtot = self.Jphoto + Jdiode`
inside `try`, returning `np.nan` (modelled `none`) on any solver exception. -/
noncomputable def VdiodeE (S : Solver) (j : Junction) (Jdiode : ℝ) :
    Except PyErr (Option ℝ) :=
  match notdiodeE j with
  | Except.error e => Except.error e
  | Except.ok true => Except.ok (some 0)
  | Except.ok false =>
      Except.ok (S (fun v => Jparallel j v (Jphoto j + Jdiode))
        (-VLIM_REVERSE) VLIM_FORWARD VTOL EPSREL MAXITER)

/-- Method `Junction.Vmid(Vtot)`: same structure as `Vdiode` but solving
`brentq(self._dV, -VLIM_REVERSE, VLIM_FORWARD, args=(Vtot), …)`. -/
noncomputable def VmidE (S : Solver) (j : Junction) (Vtot : ℝ) :
    Except PyErr (Option ℝ) :=
  match notdiodeE j with
  | Except.error e => Except.error e
  | Except.ok true => Except.ok (some 0)
  | Except.ok false =>
      Except.ok (S (fun vm => _dV j vm Vtot)
        (-VLIM_REVERSE) VLIM_FORWARD VTOL EPSREL MAXITER)

/-- The default-style test junction used for concrete witnesses: a real diode
(`pn = -1`) with one ideality factor, unit ratio, no shunt, unit series
resistance, dark (`Jext = 0`), no reverse-breakdown model. -/
noncomputable def jd : Junction :=
  { Eg := 1.1, TC := 25, Jext := 0, Gsh := 0, Rser := 1, lightarea := 1,
    totalarea := 1, pn := -1, beta := 15, gamma := 0, JLC := 0,
    n := [1], J0ratio := [1], RBB_dict := RBBDict.rbbNone }

/-- A junction marked as not-a-diode via `pn = 0`. -/
noncomputable def jp0 : Junction := { jd with pn := 0 }

/-- A junction whose `n` and `J0ratio` sequences differ in length. -/
noncomputable def jmm : Junction := { jd with J0ratio := [1, 1] }

/-- A solver that always raises (no sign change found, say). -/
def Snone : Solver := fun _ _ _ _ _ _ => none

/-- A sound solver for witnesses: it returns the root `0` whenever `0` lies
strictly inside the bracket and is an exact root, and raises otherwise. -/
noncomputable def Sw : Solver := fun f a b _ _ _ =>
  if a < 0 ∧ 0 < b ∧ f 0 = 0 then some 0 else none

lemma Sw_sound : SolverSound Sw := by
  intro f a b xt rt mi v h
  unfold Sw at h
  by_cases hc : a < 0 ∧ 0 < b ∧ f 0 = 0
  · rw [if_pos hc] at h
    have hv : (0 : ℝ) = v := Option.some.inj h
    exact hv ▸ ⟨hc.1, hc.2.1, hc.2.2⟩
  · rw [if_neg hc] at h
    exact absurd h (by simp)

lemma DBPREF_eq :
    DBPREF = Real.pi * (2 * con_e * (con_k / con_h) ^ 3 / con_c ^ 2 / 1e4) := by
  unfold DBPREF
  ring

lemma DBPREF_pos : 0 < DBPREF := by
  rw [DBPREF_eq]
  have h : (0 : ℝ) < 2 * con_e * (con_k / con_h) ^ 3 / con_c ^ 2 / 1e4 := by
    unfold con_e con_k con_h con_c
    norm_num
  exact mul_pos Real.pi_pos h

lemma Jdb_pos (j : Junction) (hT : 0 < TK j) : 0 < Jdb j := by
  unfold Jdb
  have h3 : (0 : ℝ) < TK j ^ 3 := by positivity
  have hq : 0 < j.Eg / Vth j * (j.Eg / Vth j) + 2 * (j.Eg / Vth j) + 2 := by
    nlinarith [sq_nonneg (j.Eg / Vth j + 1)]
  have he : 0 < Real.exp (-(j.Eg / Vth j)) := Real.exp_pos _
  have := mul_pos (mul_pos (mul_pos DBPREF_pos h3) hq) he
  exact this

lemma TK_jd_pos : 0 < TK jd := by
  unfold TK jd zero_Celsius
  norm_num

lemma J0list_jd : J0list jd = [Jdb jd] := by
  unfold J0list jd J0scale
  simp only [List.zipWith_cons_cons, List.zipWith_nil_right, List.cons.injEq, and_true]
  rw [show (1 : ℝ) / 1 = 1 by norm_num, Real.rpow_one]
  ring

lemma J0list_jd_sum_pos : 0 < (J0list jd).sum := by
  rw [J0list_jd]
  simpa using Jdb_pos jd TK_jd_pos

lemma jd_notdiodeE : notdiodeE jd = Except.ok false := by
  unfold notdiodeE
  rw [if_neg (by unfold jd; decide)]
  have hJ : J0 jd = some (J0list jd) := by
    unfold J0
    rw [if_pos]
    unfold jd
    rfl
  rw [hJ]
  show Except.ok (if (J0list jd).sum = 0 then true else false) = Except.ok false
  rw [if_neg (ne_of_gt J0list_jd_sum_pos)]

lemma jd_not_notdiodeProp : ¬ notdiodeProp jd := by
  unfold notdiodeProp
  push_neg
  constructor
  · unfold jd; decide
  · exact ne_of_gt J0list_jd_sum_pos

lemma Jphoto_jd : Jphoto jd = 0 := by
  unfold Jphoto jd
  norm_num

lemma Jmultidiodes_jd_zero : Jmultidiodes jd 0 = 0 := by
  unfold Jmultidiodes JmultidiodesE
  rw [J0list_jd]
  show JmultiAux _ jd 0 ((1, Jdb jd) :: []) = 0
  simp [JmultiAux, isfinite]

lemma JshuntRBB_jd_zero : JshuntRBB jd 0 = 0 := by
  unfold JshuntRBB jd
  norm_num

lemma dV_jd_zero : _dV jd 0 0 = 0 := by
  unfold _dV
  rw [Jphoto_jd]
  unfold Jparallel
  rw [if_neg jd_not_notdiodeProp, Jmultidiodes_jd_zero, JshuntRBB_jd_zero]
  norm_num

/-- C1: for every (well-formed) junction parameter set, `notdiode()` returns
true iff `pn == 0` or the sum of the per-diode saturation currents `J0` is
exactly zero; and whenever `notdiode()` is true, `Vdiode(J)` returns exactly
0 for every input current density `J` and `Vmid(Vtot)` returns exactly 0 for
every input terminal voltage `Vtot` (for any solver). -/
theorem claim_C1 (j : Junction) (hlen : j.n.length = j.J0ratio.length) :
    (notdiodeE j = Except.ok true ↔ (j.pn = 0 ∨ (J0list j).sum = 0)) ∧
    (notdiodeE j = Except.ok true →
      ∀ (S : Solver) (Jd Vtot : ℝ),
        VdiodeE S j Jd = Except.ok (some 0) ∧ VmidE S j Vtot = Except.ok (some 0)) := by
  have hJ : J0 j = some (J0list j) := by
    unfold J0
    rw [if_pos hlen]
  constructor
  · by_cases hpn : j.pn = 0
    · constructor
      · intro _
        exact Or.inl hpn
      · intro _
        unfold notdiodeE
        rw [if_pos hpn]
    · unfold notdiodeE
      rw [if_neg hpn, hJ]
      show Except.ok (if (J0list j).sum = 0 then true else false) = Except.ok true ↔ _
      constructor
      · intro h
        by_cases hs : (J0list j).sum = 0
        · exact Or.inr hs
        · rw [if_neg hs] at h
          exact absurd (Except.ok.inj h) (by simp)
      · intro h
        rcases h with h | h
        · exact absurd h hpn
        · rw [if_pos h]
  · intro h S Jd Vtot
    constructor
    · unfold VdiodeE
      rw [h]
    · unfold VmidE
      rw [h]

/-- C1 witness: the concrete junction `jp0` has `pn = 0`, so `notdiode()` is
true and both solvers return exactly 0. -/
theorem claim_C1_witness :
    jp0.n.length = jp0.J0ratio.length ∧ notdiodeE jp0 = Except.ok true ∧
    VdiodeE Snone jp0 0 = Except.ok (some 0) ∧
    VmidE Snone jp0 0 = Except.ok (some 0) := by
  have hlen : jp0.n.length = jp0.J0ratio.length := rfl
  have hnd : notdiodeE jp0 = Except.ok true := by
    unfold notdiodeE
    rw [if_pos (show jp0.pn = 0 from rfl)]
  have h := (claim_C1 jp0 hlen).2 hnd Snone 0 0
  exact ⟨hlen, hnd, h.1, h.2⟩

/-- C2: for every junction that is a diode (`notdiode()` false) and every
current density `J`, `Vdiode(J)` hands the residual
`Jparallel(v, Jphoto + J)` to the bracketed root finder on the open bracket
(−10, +3) with `xtol = 1e-4`, `rtol = 1e-15`, `maxiter = 1000`; and whenever
the search raises (no sign change, or no convergence), `Vdiode` returns the
NaN sentinel (`none`) rather than letting the exception escape. -/
theorem claim_C2 (S : Solver) (j : Junction) (Jd : ℝ)
    (hnd : notdiodeE j = Except.ok false) :
    VdiodeE S j Jd =
      Except.ok (S (fun v => Jparallel j v (Jphoto j + Jd)) (-10) 3 1e-4 1e-15 1000) ∧
    (S (fun v => Jparallel j v (Jphoto j + Jd)) (-10) 3 1e-4 1e-15 1000 = none →
      VdiodeE S j Jd = Except.ok none) := by
  have h1 : VdiodeE S j Jd =
      Except.ok (S (fun v => Jparallel j v (Jphoto j + Jd)) (-10) 3 1e-4 1e-15 1000) := by
    unfold VdiodeE
    rw [hnd]
    show Except.ok (S _ (-VLIM_REVERSE) VLIM_FORWARD VTOL EPSREL MAXITER) = _
    norm_num [VLIM_REVERSE, VLIM_FORWARD, VTOL, EPSREL, MAXITER]
  refine ⟨h1, fun h => ?_⟩
  rw [h1, h]

/-- C2 witness: on the concrete diode junction `jd`, a solver that raises
makes `Vdiode` return the NaN sentinel. -/
theorem claim_C2_witness :
    notdiodeE jd = Except.ok false ∧ VdiodeE Snone jd 0 = Except.ok none := by
  exact ⟨jd_notdiodeE, (claim_C2 Snone jd 0 jd_notdiodeE).2 rfl⟩

/-- C3: the series residual `_dV(Vmid, Vtot)` equals
`Vtot − Vmid + Jparallel(Vmid, Jphoto) · Rser`; and for a diode junction with
`Rser > 0` and a sound root finder, any non-NaN voltage `v` returned by
`Vmid(Vtot)` satisfies `|_dV(v, Vtot)| ≤ 1e-4` (in fact the residual is 0). -/
theorem claim_C3 (S : Solver) (j : Junction) (Vtot v : ℝ)
    (hS : SolverSound S) (hnd : notdiodeE j = Except.ok false)
    (hR : 0 < j.Rser) (hv : VmidE S j Vtot = Except.ok (some v)) :
    (∀ vm vt : ℝ, _dV j vm vt = vt - vm + Jparallel j vm (Jphoto j) * j.Rser) ∧
    abs (_dV j v Vtot) ≤ VTOL := by
  constructor
  · intro vm vt
    rfl
  · have h1 : VmidE S j Vtot =
        Except.ok (S (fun vm => _dV j vm Vtot)
          (-VLIM_REVERSE) VLIM_FORWARD VTOL EPSREL MAXITER) := by
      unfold VmidE
      rw [hnd]
    rw [h1] at hv
    have h2 : S (fun vm => _dV j vm Vtot)
        (-VLIM_REVERSE) VLIM_FORWARD VTOL EPSREL MAXITER = some v := Except.ok.inj hv
    have h3 : _dV j v Vtot = 0 := (hS _ _ _ _ _ _ _ h2).2.2
    rw [h3, abs_zero]
    unfold VTOL
    norm_num

/-- C3 witness: on the concrete junction `jd` with `Rser = 1` and the sound
solver `Sw`, `Vmid(0)` returns 0 and the residual there is within tolerance. -/
theorem claim_C3_witness :
    SolverSound Sw ∧ notdiodeE jd = Except.ok false ∧ 0 < jd.Rser ∧
    VmidE Sw jd 0 = Except.ok (some 0) ∧ abs (_dV jd 0 0) ≤ VTOL := by
  have hR : (0 : ℝ) < jd.Rser := by
    unfold jd
    norm_num
  have hv : VmidE Sw jd 0 = Except.ok (some 0) := by
    unfold VmidE
    rw [jd_notdiodeE]
    show Except.ok (Sw (fun vm => _dV jd vm 0)
      (-VLIM_REVERSE) VLIM_FORWARD VTOL EPSREL MAXITER) = _
    unfold Sw
    rw [if_pos ⟨by norm_num [VLIM_REVERSE], by norm_num [VLIM_FORWARD],
      show _dV jd 0 0 = 0 from dV_jd_zero⟩]
  exact ⟨Sw_sound, jd_notdiodeE, hR, hv,
    (claim_C3 Sw jd 0 0 Sw_sound jd_notdiodeE hR hv).2⟩

lemma DBPREF_bounds : 1.0132e-8 < DBPREF ∧ DBPREF < 1.0134e-8 := by
  have hQ : (0 : ℝ) < 2 * con_e * (con_k / con_h) ^ 3 / con_c ^ 2 / 1e4 := by
    unfold con_e con_k con_h con_c
    norm_num
  constructor
  · have h1 : (3.141592 : ℝ) * (2 * con_e * (con_k / con_h) ^ 3 / con_c ^ 2 / 1e4) <
        Real.pi * (2 * con_e * (con_k / con_h) ^ 3 / con_c ^ 2 / 1e4) :=
      mul_lt_mul_of_pos_right Real.pi_gt_d6 hQ
    rw [DBPREF_eq]
    refine lt_trans ?_ h1
    unfold con_e con_k con_h con_c
    norm_num
  · have h1 : Real.pi * (2 * con_e * (con_k / con_h) ^ 3 / con_c ^ 2 / 1e4) <
        (3.141593 : ℝ) * (2 * con_e * (con_k / con_h) ^ 3 / con_c ^ 2 / 1e4) :=
      mul_lt_mul_of_pos_right Real.pi_lt_d6 hQ
    rw [DBPREF_eq]
    refine lt_trans h1 ?_
    unfold con_e con_k con_h con_c
    norm_num

/-- C4: for every band gap `Eg > 0` and temperature `TC`, the detailed-balance
saturation current `Jdb` equals exactly `prefix · T³ · (x² + 2x + 2) · e^(−x)`
with `T = TC + 273.15`, `x = Eg / Vth`, `Vth = (k/q) · T`, and the prefix is
the fixed physical constant ≈ 1.0133×10⁻⁸ A/cm²/K³. -/
theorem claim_C4 (j : Junction) (hEg : 0 < j.Eg) :
    Jdb j =
      DBPREF * (j.TC + 273.15) ^ 3 *
        ((j.Eg / (k_q * (j.TC + 273.15))) ^ 2 + 2 * (j.Eg / (k_q * (j.TC + 273.15))) + 2) *
        Real.exp (-(j.Eg / (k_q * (j.TC + 273.15)))) ∧
    k_q = con_k / con_e ∧ 1.0132e-8 < DBPREF ∧ DBPREF < 1.0134e-8 := by
  refine ⟨?_, rfl, DBPREF_bounds.1, DBPREF_bounds.2⟩
  unfold Jdb Vth TK zero_Celsius
  ring_nf

/-- C4 witness: the closed form and the prefix bounds at the concrete
junction `jd` (`Eg = 1.1 > 0`, `TC = 25`). -/
theorem claim_C4_witness :
    0 < jd.Eg ∧
    (Jdb jd =
      DBPREF * (jd.TC + 273.15) ^ 3 *
        ((jd.Eg / (k_q * (jd.TC + 273.15))) ^ 2 + 2 * (jd.Eg / (k_q * (jd.TC + 273.15))) + 2) *
        Real.exp (-(jd.Eg / (k_q * (jd.TC + 273.15)))) ∧
    k_q = con_k / con_e ∧ 1.0132e-8 < DBPREF ∧ DBPREF < 1.0134e-8) := by
  have hEg : (0 : ℝ) < jd.Eg := by
    unfold jd
    norm_num
  exact ⟨hEg, claim_C4 jd hEg⟩

/-- C5: when `n` and `J0ratio` have equal length `N`, `J0` returns the
length-`N` vector whose i-th entry is
`(Jdb · 1000)^(1/n_i) · J0ratio_i / 1000`; when their lengths differ, `J0`
returns the NaN-marked invalid result (`none`), not an exception. -/
theorem claim_C5 (j : Junction) :
    (j.n.length = j.J0ratio.length →
      J0 j = some (List.zipWith
          (fun ni ri => (Jdb j * 1000) ^ (1 / ni) * ri / 1000) j.n j.J0ratio) ∧
      (List.zipWith
          (fun ni ri => (Jdb j * 1000) ^ (1 / ni) * ri / 1000) j.n j.J0ratio).length =
        j.n.length) ∧
    (j.n.length ≠ j.J0ratio.length → J0 j = none) := by
  constructor
  · intro h
    constructor
    · unfold J0
      rw [if_pos h]
      unfold J0list J0scale
      norm_num
    · rw [List.length_zipWith, h, min_self]
  · intro h
    unfold J0
    rw [if_neg h]

/-- C5 witness: the matched-length junction `jd` gets the computed array, the
mismatched-length junction `jmm` gets the NaN sentinel. -/
theorem claim_C5_witness :
    J0 jd = some (List.zipWith
      (fun ni ri => (Jdb jd * 1000) ^ (1 / ni) * ri / 1000) jd.n jd.J0ratio) ∧
    J0 jmm = none := by
  exact ⟨((claim_C5 jd).1 rfl).1, (claim_C5 jmm).2 (by unfold jmm jd; simp)⟩

lemma JmultiAux_eq (E : ℝ → Option ℝ) (hE : ∀ x y, E x = some y → y = Real.exp x)
    (j : Junction) (V : ℝ) :
    ∀ l : List (ℝ × ℝ), JmultiAux E j V l =
      (l.map (fun p =>
        if (0 < p.1 ∧ isfinite p.2 = true) ∧ (E (V / Vth j / p.1)).isSome = true
        then p.2 * (Real.exp (V / Vth j / p.1) - 1) else 0)).sum := by
  intro l
  induction l with
  | nil => simp [JmultiAux]
  | cons p rest ih =>
      by_cases h1 : 0 < p.1 ∧ isfinite p.2 = true
      · cases hEp : E (V / Vth j / p.1) with
        | none => simp [JmultiAux, hEp, h1, ih]
        | some y => simp [JmultiAux, hEp, h1, ih, hE _ _ hEp]
      · simp [JmultiAux, h1, ih]

/-- C6: for every voltage `V`, `Jmultidiodes(V)` equals the sum over exactly
those diodes with ideality factor > 0 and finite saturation current of
`J0_i · (e^(V / Vth / n_i) − 1)`; and for any `np.exp` evaluator that may
raise on some terms (overflow), each raising term contributes nothing to the
sum instead of propagating. -/
theorem claim_C6 (j : Junction) (V : ℝ) :
    Jmultidiodes j V =
      ((j.n.zip (J0list j)).map (fun p =>
        if 0 < p.1 ∧ isfinite p.2 = true
        then p.2 * (Real.exp (V / Vth j / p.1) - 1) else 0)).sum ∧
    (∀ E : ℝ → Option ℝ, (∀ x y, E x = some y → y = Real.exp x) →
      JmultidiodesE E j V =
        ((j.n.zip (J0list j)).map (fun p =>
          if (0 < p.1 ∧ isfinite p.2 = true) ∧ (E (V / Vth j / p.1)).isSome = true
          then p.2 * (Real.exp (V / Vth j / p.1) - 1) else 0)).sum) := by
  constructor
  · unfold Jmultidiodes JmultidiodesE
    rw [JmultiAux_eq (fun x => some (Real.exp x))
      (fun x y h => (Option.some.inj h).symm) j V]
    simp
  · intro E hE
    unfold JmultidiodesE
    exact JmultiAux_eq E hE j V _

/-- C6 witness: an always-raising evaluator makes the concrete junction's
sum collapse to 0 (every term skipped), while the ideal evaluator gives the
single-diode term. -/
theorem claim_C6_witness :
    JmultidiodesE (fun _ => (none : Option ℝ)) jd 1 = 0 ∧
    Jmultidiodes jd 1 = Jdb jd * (Real.exp (1 / Vth jd) - 1) := by
  constructor
  · rw [(claim_C6 jd 1).2 (fun _ => (none : Option ℝ)) (fun x y h => by cases h)]
    simp
  · rw [(claim_C6 jd 1).1, J0list_jd]
    have hn : jd.n = [1] := rfl
    rw [hn]
    simp [isfinite]

/-- C7: for every voltage `V`, `JshuntRBB(V)` equals `V · Gsh` plus the
breakdown contribution of the `RBB_dict` variant: JFG active exactly when
`V ≤ Vrb` and `mrb ≠ 0`; bishop active exactly when `V ≤ 0` and `Vrb ≠ 0`;
the no-breakdown and pvmismatch methods contribute 0. -/
theorem claim_C7 (j : Junction) (V : ℝ) :
    (∀ mrb J0rb Vrb, j.RBB_dict = RBBDict.JFG mrb J0rb Vrb →
      JshuntRBB j V = V * j.Gsh +
        (if V ≤ Vrb ∧ mrb ≠ 0 then
          -J0rb * (Jdb j * 1000) ^ (1 / mrb) / 1000 * (Real.exp (-V / Vth j / mrb) - 1)
        else 0)) ∧
    (∀ mrb a Vrb, j.RBB_dict = RBBDict.bishop mrb a Vrb →
      JshuntRBB j V = V * j.Gsh +
        (if V ≤ 0 ∧ Vrb ≠ 0 then V * j.Gsh * a * (1 - V / Vrb) ^ (-mrb) else 0)) ∧
    (j.RBB_dict = RBBDict.rbbNone → JshuntRBB j V = V * j.Gsh) ∧
    (j.RBB_dict = RBBDict.pvmismatch → JshuntRBB j V = V * j.Gsh) := by
  refine ⟨?_, ?_, ?_, ?_⟩
  · intro mrb J0rb Vrb h
    unfold JshuntRBB
    rw [h]
  · intro mrb a Vrb h
    unfold JshuntRBB
    rw [h]
  · intro h
    unfold JshuntRBB
    rw [h]
    exact add_zero _
  · intro h
    unfold JshuntRBB
    rw [h]
    exact add_zero _

/-- The concrete junction with the JFG reverse-breakdown settings that
`set(RBB='JFG')` installs: `mrb = 10`, `J0rb = 0.5`, `Vrb = 0`. -/
noncomputable def jJFG : Junction := { jd with RBB_dict := RBBDict.JFG 10 0.5 0 }

/-- C7 witness: the JFG branch evaluated at `V = −1` on `jJFG`, and the
no-breakdown branch on `jd`. -/
theorem claim_C7_witness :
    JshuntRBB jJFG (-1) = (-1) * jJFG.Gsh +
      (if (-1 : ℝ) ≤ 0 ∧ (10 : ℝ) ≠ 0 then
        -0.5 * (Jdb jJFG * 1000) ^ (1 / (10 : ℝ)) / 1000 *
          (Real.exp (-(-1) / Vth jJFG / 10) - 1)
      else 0) ∧
    JshuntRBB jd 2 = 2 * jd.Gsh := by
  exact ⟨(claim_C7 jJFG (-1)).1 10 0.5 0 rfl, (claim_C7 jd 2).2.2.1 rfl⟩

lemma roundtrip_aux (c s : ℝ) (hc : 0 < c) (hs : s ≠ 0) :
    ∀ ns rs : List ℝ, ns.length = rs.length →
      List.zipWith (fun ni ri => c ^ (1 / ni) * ri / s) ns
        (List.zipWith (fun ni r => s * r / c ^ (1 / ni)) ns rs) = rs := by
  intro ns
  induction ns with
  | nil =>
      intro rs h
      cases rs with
      | nil => rfl
      | cons r1 rs => simp at h
  | cons n1 ns ih =>
      intro rs h
      cases rs with
      | nil => simp at h
      | cons r1 rs =>
          have h2 : ns.length = rs.length := by simpa using h
          have hB : c ^ (1 / n1) ≠ 0 := ne_of_gt (Real.rpow_pos_of_pos hc _)
          simp only [List.zipWith_cons_cons]
          rw [ih rs h2]
          congr 1
          field_simp

lemma J0init_matched (j : Junction) (J0ref : List ℝ) (hlen : j.n.length = J0ref.length) :
    _J0init j J0ref = ({ j with J0ratio := List.zipWith (fun ni Jr => J0scale * Jr / (Jdb j * J0scale) ^ (1 / ni)) j.n J0ref }, 0) := by
  unfold _J0init
  rw [if_pos hlen]

lemma J0_of_update (j : Junction) (L : List ℝ) (h : j.n.length = L.length) :
    J0 { j with J0ratio := L } = some (List.zipWith (fun ni ri => (Jdb j * J0scale) ^ (1 / ni) * ri / J0scale) j.n L) := by
  unfold J0 J0list
  rw [if_pos h]
  rfl

/-- C8 counterexample: on the concrete junction `jd` (whose `n` and
`J0ratio` match each other), `_J0init` with a wrong-length `J0ref` signals
status 1 but does NOT leave the saturation-current result NaN-marked: `J0`
still returns the array computed from the untouched ratios. -/
theorem claim_C8_counterexample :
    (_J0init jd [1, 2]).2 = 1 ∧ J0 ((_J0init jd [1, 2]).1) ≠ none := by
  have h : _J0init jd [1, 2] = (jd, 1) := by
    unfold _J0init
    rw [if_neg (by unfold jd; simp)]
  rw [h]
  refine ⟨rfl, ?_⟩
  have hJ : J0 jd = some (J0list jd) := by
    unfold J0
    rw [if_pos (show jd.n.length = jd.J0ratio.length from rfl)]
  rw [hJ]
  simp

/-- C8 (amended): for matching lengths (with nonzero ideality factors, a
physical temperature and positive reference currents), `_J0init(J0ref)`
returns status 0 and the recomputed `J0` reproduces `J0ref` exactly — in
particular within 1e-12 relative tolerance; when the lengths differ,
`_J0init` signals status 1 and leaves the junction (hence `J0ratio` and the
`J0` result) unchanged, rather than crashing or NaN-marking the result. -/
theorem claim_C8 (j : Junction) (J0ref : List ℝ)
    (hT : 0 < TK j) (hn : ∀ ni ∈ j.n, ni ≠ 0) (hpos : ∀ r ∈ J0ref, 0 < r) :
    (j.n.length = J0ref.length →
      (_J0init j J0ref).2 = 0 ∧ J0 ((_J0init j J0ref).1) = some J0ref ∧
      (∀ l, J0 ((_J0init j J0ref).1) = some l →
        List.Forall₂ (fun a r => abs (a - r) ≤ 1e-12 * abs r) l J0ref)) ∧
    (j.n.length ≠ J0ref.length → _J0init j J0ref = (j, 1)) := by
  constructor
  · intro hlen
    have hc : 0 < Jdb j * J0scale := by
      have hJ := Jdb_pos j hT
      unfold J0scale
      nlinarith
    have hs : J0scale ≠ 0 := by
      unfold J0scale
      norm_num
    have hrt := roundtrip_aux (Jdb j * J0scale) J0scale hc hs j.n J0ref hlen
    have hupd := J0init_matched j J0ref hlen
    have hlen2 : j.n.length = (List.zipWith (fun ni Jr => J0scale * Jr / (Jdb j * J0scale) ^ (1 / ni)) j.n J0ref).length := by
      rw [List.length_zipWith, hlen, min_self]
    have hJ0 : J0 ((_J0init j J0ref).1) = some J0ref := by
      rw [hupd]
      show J0 _ = some J0ref
      rw [J0_of_update j _ hlen2, hrt]
    refine ⟨by rw [hupd], hJ0, ?_⟩
    intro l hl
    rw [hJ0] at hl
    have hll : l = J0ref := (Option.some.inj hl).symm
    subst hll
    rw [List.forall₂_same]
    intro x _
    rw [sub_self, abs_zero]
    positivity
  · intro h
    unfold _J0init
    rw [if_neg h]

/-- C8 witness: the round-trip at the concrete junction `jd` with
`J0ref = [0.5]`. -/
theorem claim_C8_witness :
    0 < TK jd ∧ (∀ ni ∈ jd.n, ni ≠ 0) ∧ (∀ r ∈ [(0.5 : ℝ)], 0 < r) ∧
    jd.n.length = [(0.5 : ℝ)].length ∧
    (_J0init jd [0.5]).2 = 0 ∧ J0 ((_J0init jd [0.5]).1) = some [0.5] := by
  have hT := TK_jd_pos
  have hn : ∀ ni ∈ jd.n, ni ≠ 0 := by
    intro ni h
    have hjd : jd.n = [1] := rfl
    rw [hjd] at h
    simp at h
    rw [h]
    norm_num
  have hpos : ∀ r ∈ [(0.5 : ℝ)], 0 < r := by
    intro r h
    simp at h
    rw [h]
    norm_num
  have h := (claim_C8 jd [0.5] hT hn hpos).1 rfl
  exact ⟨hT, hn, hpos, rfl, h.1, h.2.1⟩

/-- C9: `Jem(V) = 0` exactly for every `V ≤ 0`; for `V > 0` it equals
`Jdb · (e^(V/Vth) − 1) + gamma · Jphoto`; and when `gamma = 0` the function
is right-continuous at 0 (it tends to 0 as `V → 0⁺`). -/
theorem claim_C9 (j : Junction) :
    (∀ V : ℝ, V ≤ 0 → Jem j V = 0) ∧
    (∀ V : ℝ, 0 < V →
      Jem j V = Jdb j * (Real.exp (V / Vth j) - 1) + j.gamma * Jphoto j) ∧
    (j.gamma = 0 →
      Filter.Tendsto (fun V => Jem j V) (nhdsWithin 0 (Set.Ioi 0)) (nhds 0)) := by
  refine ⟨?_, ?_, ?_⟩
  · intro V hV
    unfold Jem
    rw [if_neg (not_lt.mpr hV)]
  · intro V hV
    unfold Jem
    rw [if_pos hV]
  · intro hg
    have hcont : Filter.Tendsto
        (fun V : ℝ => Jdb j * (Real.exp (V / Vth j) - 1) + j.gamma * Jphoto j)
        (nhds 0) (nhds (Jdb j * (Real.exp (0 / Vth j) - 1) + j.gamma * Jphoto j)) := by
      apply Continuous.tendsto
      exact (continuous_const.mul ((Real.continuous_exp.comp
        (continuous_id.div_const _)).sub continuous_const)).add continuous_const
    have hval : Jdb j * (Real.exp (0 / Vth j) - 1) + j.gamma * Jphoto j = 0 := by
      rw [zero_div, Real.exp_zero, hg]
      ring
    rw [hval] at hcont
    refine Filter.Tendsto.congr' ?_ (hcont.mono_left nhdsWithin_le_nhds)
    filter_upwards [self_mem_nhdsWithin] with V hV
    unfold Jem
    rw [if_pos (Set.mem_Ioi.mp hV)]

/-- C9 witness: the three parts at the concrete junction `jd`
(`gamma = 0`). -/
theorem claim_C9_witness :
    Jem jd (-1) = 0 ∧
    Jem jd 1 = Jdb jd * (Real.exp (1 / Vth jd) - 1) + jd.gamma * Jphoto jd ∧
    Filter.Tendsto (fun V => Jem jd V) (nhdsWithin 0 (Set.Ioi 0)) (nhds 0) := by
  have h := claim_C9 jd
  exact ⟨h.1 (-1) (by norm_num), h.2.1 1 (by norm_num), h.2.2 rfl⟩

/-- C10 (implicit edge case): for every junction with `pn ≠ 0` whose `n` and
`J0ratio` differ in length, `J0` evaluates to the scalar NaN (`none`) rather
than an array; `notdiode()` raises `TypeError` iterating it; and since both
`Vdiode` and `Vmid` call `notdiode()` before their `try` blocks, they crash
with the uncaught `TypeError` instead of returning 0 or the NaN sentinel. -/
theorem claim_C10 (j : Junction) (S : Solver) (hpn : j.pn ≠ 0)
    (hlen : j.n.length ≠ j.J0ratio.length) :
    J0 j = none ∧ notdiodeE j = Except.error PyErr.typeError ∧
    (∀ Jd : ℝ, VdiodeE S j Jd = Except.error PyErr.typeError) ∧
    (∀ Vt : ℝ, VmidE S j Vt = Except.error PyErr.typeError) := by
  have hJ : J0 j = none := by
    unfold J0
    rw [if_neg hlen]
  have hnd : notdiodeE j = Except.error PyErr.typeError := by
    unfold notdiodeE
    rw [if_neg hpn, hJ]
  refine ⟨hJ, hnd, fun Jd => ?_, fun Vt => ?_⟩
  · unfold VdiodeE
    rw [hnd]
  · unfold VmidE
    rw [hnd]

/-- C10 witness: the concrete mismatched junction `jmm` (with `pn = −1`)
makes `J0` NaN and both solver entry points raise `TypeError`. -/
theorem claim_C10_witness :
    jmm.pn ≠ 0 ∧ jmm.n.length ≠ jmm.J0ratio.length ∧
    J0 jmm = none ∧ notdiodeE jmm = Except.error PyErr.typeError ∧
    VdiodeE Snone jmm 0 = Except.error PyErr.typeError ∧
    VmidE Snone jmm 0 = Except.error PyErr.typeError := by
  have hpn : jmm.pn ≠ 0 := by
    have h : jmm.pn = -1 := rfl
    rw [h]
    decide
  have hlen : jmm.n.length ≠ jmm.J0ratio.length := by
    have h1 : jmm.n.length = 1 := rfl
    have h2 : jmm.J0ratio.length = 2 := rfl
    rw [h1, h2]
    decide
  have h := claim_C10 jmm Snone hpn hlen
  exact ⟨hpn, hlen, h.1, h.2.1, h.2.2.1 0, h.2.2.2 0⟩
